import Mathlib

/-!
Verification development for the steel-order automation pipeline
(`steel_automation`): a shallow embedding of the cleaning engine
(`core/data_processor.py`, `SteelDataProcessor.clean_data_optimized`), the
per-record validator (`core/validation.py`, `SteelDataValidator`) and the
notification dispatcher (`services/email_service.py`, `EmailService`).

Modelling conventions:
* Python floats are modelled by `ℚ` (the tolerance checks are exact
  arithmetic over the parsed values; no claim depends on binary rounding).
* A pandas cell that may hold a number, a string or NaN/None is modelled by
  `PyVal`; `pd.isna` is the `vnone` case.  Operations that would raise
  `TypeError` in Python (comparing a string with a number) are modelled with
  `Except Unit`, mirrored by the `except (TypeError, ValueError)` handlers.
* Date cells are modelled already parsed: `dok d` is a timestamp in whole
  days, `dmissing` is NaN/NaT, `dbad` is a string `pd.to_datetime` rejects.
* `datetime.now()` and the `ProcessedAt` stamp are explicit parameters.
* Record field access `row.get(field)` is typed optional-field access, per
  the spec's data-model note.
-/

/-- A pandas cell value: NaN/None, a numeric value, or a string. -/
inductive PyVal where
  | vnone : PyVal
  | vnum (q : ℚ) : PyVal
  | vstr (s : String) : PyVal
deriving DecidableEq

/-- A date cell, already through `pd.to_datetime`: missing (NaT), malformed
(raises `ValueError`), or a parsed timestamp counted in whole days. -/
inductive DateVal where
  | dmissing : DateVal
  | dbad : DateVal
  | dok (d : ℤ) : DateVal
deriving DecidableEq

/-- One steel-order row.  String columns are `Option String` (missing cell =
`none`), numeric columns are `PyVal`, date columns `DateVal`.  The last four
fields are the derived columns `clean_data_optimized` adds (absent on raw
input). -/
structure Record where
  OrderID : Option String := none
  BatchID : Option String := none
  CustomerName : Option String := none
  SteelGrade : Option String := none
  SteelType : Option String := none
  ProductionLine : Option String := none
  Status : Option String := none
  Warehouse : Option String := none
  QualityGrade : Option String := none
  Thickness : PyVal := PyVal.vnone
  Width : PyVal := PyVal.vnone
  Length : PyVal := PyVal.vnone
  Weight : PyVal := PyVal.vnone
  UnitPrice : PyVal := PyVal.vnone
  TotalPrice : PyVal := PyVal.vnone
  OrderDate : DateVal := DateVal.dmissing
  ProductionDate : DateVal := DateVal.dmissing
  DeliveryDate : DateVal := DateVal.dmissing
  ContactEmail : Option String := none
  ContactPhone : Option String := none
  ValuePerKg : Option ℚ := none
  Volume : Option ℚ := none
  Density : Option ℚ := none
  ProcessedAt : Option ℕ := none
deriving DecidableEq

/-! ### Character classes and pattern matching

`re.match(r'^...$', s)` in Python also accepts a single trailing newline
before the `$`; `dollarMatch` reproduces that. -/

def isDigitChar (c : Char) : Bool := c.isDigit

def isAlphaChar (c : Char) : Bool := c.isAlpha

/-- `[a-zA-Z0-9._%+-]`, the local part of the email pattern. -/
def isLocalChar (c : Char) : Bool :=
  c.isAlpha || c.isDigit || c = '.' || c = '_' || c = '%' || c = '+' || c = '-'

/-- `[a-zA-Z0-9.-]`, the domain part of the email pattern. -/
def isDomChar (c : Char) : Bool :=
  c.isAlpha || c.isDigit || c = '.' || c = '-'

/-- `[\d\s\-\(\)\+x\.]`, the phone pattern character class. -/
def isPhoneChar (c : Char) : Bool :=
  c.isDigit || c = ' ' || c = '\t' || c = '\n' || c = '\x0b' || c = '\x0c' ||
  c = '\r' || c = '-' || c = '(' || c = ')' || c = '+' || c = 'x' || c = '.'

/-- All ways to cut a list in two, for regex-style backtracking. -/
def splitsOf (cs : List Char) : List (List Char × List Char) :=
  (List.range (cs.length + 1)).map (fun i => (cs.take i, cs.drop i))

/-- `[a-zA-Z0-9.-]+\.[a-zA-Z]{2,}` against the whole input. -/
def domCore (cs : List Char) : Bool :=
  (splitsOf cs).any (fun pr =>
    match pr.2 with
    | '.' :: t =>
        !pr.1.isEmpty && pr.1.all isDomChar && decide (2 ≤ t.length) &&
          t.all isAlphaChar
    | _ => false)

/-- `[a-zA-Z0-9._%+-]+@` followed by `domCore`, against the whole input:
the body of the validator's email pattern. -/
def emailCore (cs : List Char) : Bool :=
  (splitsOf cs).any (fun pr =>
    match pr.2 with
    | '@' :: r => !pr.1.isEmpty && pr.1.all isLocalChar && domCore r
    | _ => false)

/-- `^SO-\d{4}-\d{4}$` body. -/
def orderIdCore (cs : List Char) : Bool :=
  match cs with
  | 'S' :: 'O' :: '-' :: a :: b :: c :: d :: '-' :: e :: f :: g :: h :: [] =>
      [a, b, c, d, e, f, g, h].all isDigitChar
  | _ => false

/-- `^B-\d{6}$` body. -/
def batchIdCore (cs : List Char) : Bool :=
  match cs with
  | 'B' :: '-' :: a :: b :: c :: d :: e :: f :: [] =>
      [a, b, c, d, e, f].all isDigitChar
  | _ => false

/-- `^[\d\s\-\(\)\+x\.]+$` body. -/
def phoneCore (cs : List Char) : Bool :=
  !cs.isEmpty && cs.all isPhoneChar

/-- Python's `$` in `re.match` also matches just before a final newline. -/
def dollarMatch (core : List Char → Bool) (cs : List Char) : Bool :=
  core cs ||
    (match cs.getLast? with
     | some c => c = '\n' && core cs.dropLast
     | none => false)

def emailMatch (s : String) : Bool := dollarMatch emailCore s.data

def phoneMatch (s : String) : Bool := dollarMatch phoneCore s.data

def orderIdMatch (s : String) : Bool := dollarMatch orderIdCore s.data

def batchIdMatch (s : String) : Bool := dollarMatch batchIdCore s.data

/-! ### Numeric coercion (`SteelDataProcessor`) -/

def isSpaceChar (c : Char) : Bool :=
  c = ' ' || c = '\t' || c = '\n' || c = '\x0b' || c = '\x0c' || c = '\r'

/-- Python `str.strip()`. -/
def trimChars (cs : List Char) : List Char :=
  ((cs.dropWhile isSpaceChar).reverse.dropWhile isSpaceChar).reverse

def digitsVal (cs : List Char) : ℕ :=
  cs.foldl (fun acc c => acc * 10 + (c.toNat - '0'.toNat)) 0

/-- Python `float()` on a plain decimal literal: optional sign, then digits
with at most one decimal point and at least one digit. -/
def parsePyFloat (cs : List Char) : Option ℚ :=
  let (sign, body) :=
    match cs with
    | '+' :: r => ((1 : ℚ), r)
    | '-' :: r => ((-1 : ℚ), r)
    | r => ((1 : ℚ), r)
  let intPart := body.takeWhile isDigitChar
  let rest := body.drop intPart.length
  match rest with
  | [] =>
      if intPart.isEmpty then none
      else some (sign * (digitsVal intPart : ℚ))
  | '.' :: frac =>
      if frac.all isDigitChar && !(intPart.isEmpty && frac.isEmpty) then
        some (sign * ((digitsVal intPart : ℚ) +
          (digitsVal frac : ℚ) / (10 : ℚ) ^ frac.length))
      else none
  | _ => none

/-- `SteelDataProcessor.clean_price_value`: strip `$`, `,` and whitespace
from a string and convert; missing, empty or unparsable values become 0. -/
def clean_price_value (v : PyVal) : ℚ :=
  match v with
  | PyVal.vnone => 0
  | PyVal.vnum q => q
  | PyVal.vstr s =>
      if s = "" then 0
      else
        match parsePyFloat (trimChars (s.data.filter
            (fun c => !(c = '$' || c = ',')))) with
        | some q => q
        | none => 0

/-- `pd.to_numeric(..., errors='coerce').fillna(0)` on one cell. -/
def toNumericFill0 (v : PyVal) : ℚ :=
  match v with
  | PyVal.vnone => 0
  | PyVal.vnum q => q
  | PyVal.vstr s =>
      match parsePyFloat (trimChars s.data) with
      | some q => q
      | none => 0

/-! ### Validation constants (`SteelDataValidator.__init__`, identical lists
in `SteelDataProcessor.__init__`) -/

def valid_steel_grades : List String :=
  ["A36", "A572-50", "A992", "A514", "A588", "A242", "A709-50",
   "S355", "S275", "S235", "S420", "S460", "Q235", "Q345",
   "304SS", "316SS", "409SS", "430SS", "201SS"]

def valid_steel_types : List String :=
  ["Hot Rolled", "Cold Rolled", "Galvanized", "Stainless Steel",
   "Carbon Steel", "Alloy Steel", "Tool Steel", "Spring Steel"]

def valid_production_lines : List String :=
  ["Line-A1", "Line-A2", "Line-B1", "Line-B2", "Line-C1", "Line-C2",
   "Line-D1", "Line-D2", "Line-E1", "Line-E2"]

def valid_statuses : List String :=
  ["Pending", "In Production", "Quality Check", "Ready", "Shipped",
   "Delivered", "Cancelled", "Hold", "Rework Required"]

def valid_warehouses : List String :=
  ["WH-North", "WH-South", "WH-East", "WH-West", "WH-Central",
   "WH-Export", "WH-Domestic", "WH-Reserve"]

def valid_quality_grades : List String := ["A", "B", "C", "Reject", "Rework"]

/-! ### Cleaning (`SteelDataProcessor.clean_data_optimized`) -/

/-- `Series.isin(values)`: NaN is never a member. -/
def isinOpt (v : Option String) (values : List String) : Bool :=
  match v with
  | some s => values.contains s
  | none => false

/-- `drop_duplicates(subset=['OrderID'], keep='first')`, also returning the
dropped rows.  pandas treats two NaN keys as duplicates, matching `Option`
equality here. -/
def dedupAux (seen : List (Option String)) :
    List Record → List Record × List Record
  | [] => ([], [])
  | r :: rest =>
      if r.OrderID ∈ seen then
        let out := dedupAux seen rest
        (out.1, r :: out.2)
      else
        let out := dedupAux (r.OrderID :: seen) rest
        (r :: out.1, out.2)

/-- Rows kept and rows dropped by the deduplication step. -/
def dedupSplit (data : List Record) : List Record × List Record :=
  dedupAux [] data

/-- Steps 2-3 of `clean_data_optimized`: price cleaning on
`TotalPrice`/`UnitPrice` and numeric coercion (NaN → 0) on the four
dimension columns. -/
def coerceRecord (r : Record) : Record :=
  { r with
    TotalPrice := PyVal.vnum (clean_price_value r.TotalPrice)
    UnitPrice := PyVal.vnum (clean_price_value r.UnitPrice)
    Weight := PyVal.vnum (toNumericFill0 r.Weight)
    Thickness := PyVal.vnum (toNumericFill0 r.Thickness)
    Width := PyVal.vnum (toNumericFill0 r.Width)
    Length := PyVal.vnum (toNumericFill0 r.Length) }

/-- Strictly positive numeric cell (a coerced column never holds `vstr`). -/
def pvPos (v : PyVal) : Bool :=
  match v with
  | PyVal.vnum q => decide (0 < q)
  | _ => false

/-- Numeric value of a coerced cell. -/
def pvQ (v : PyVal) : ℚ :=
  match v with
  | PyVal.vnum q => q
  | _ => 0

/-- Step 4 of `clean_data_optimized`: the vectorized `valid_mask`. -/
def validMask (r : Record) : Bool :=
  isinOpt r.SteelGrade valid_steel_grades &&
  isinOpt r.SteelType valid_steel_types &&
  isinOpt r.ProductionLine valid_production_lines &&
  isinOpt r.Status valid_statuses &&
  isinOpt r.Warehouse valid_warehouses &&
  pvPos r.TotalPrice && pvPos r.Weight && pvPos r.Thickness &&
  pvPos r.Width && pvPos r.Length

/-- Steps 5-6 of `clean_data_optimized`: derived columns and the
`ProcessedAt` stamp (`ts` stands for `datetime.now()` at this run). -/
def deriveRecord (ts : ℕ) (r : Record) : Record :=
  { r with
    ValuePerKg := some (pvQ r.TotalPrice / pvQ r.Weight)
    Volume := some (pvQ r.Thickness * pvQ r.Width * pvQ r.Length /
      1000000000)
    Density := some (pvQ r.Weight /
      (pvQ r.Thickness * pvQ r.Width * pvQ r.Length / 1000000000))
    ProcessedAt := some ts }

/-- Outcome of one cleaning run: the cleaned rows plus the two counts the
processor records (`duplicates_removed`, `invalid_count`). -/
structure CleanResult where
  cleaned : List Record
  duplicates_removed : ℕ
  invalid_count : ℕ
deriving DecidableEq

/-- `SteelDataProcessor.clean_data_optimized`: dedup by OrderID keeping the
first occurrence, coerce numerics, filter by `valid_mask`, add derived
columns and the timestamp. -/
def clean_data_optimized (ts : ℕ) (data : List Record) : CleanResult :=
  let kept := (dedupSplit data).1
  let coerced := kept.map coerceRecord
  let survivors := coerced.filter validMask
  { cleaned := survivors.map (deriveRecord ts)
    duplicates_removed := data.length - kept.length
    invalid_count := coerced.length - survivors.length }

/-! ### Field validators (`SteelDataValidator`)

Each `validate_*` method builds an internal `errors` list and returns
`(errors == [], '; '.join(errors))`; `validate_single_order` appends the
joined string when non-empty.  Here each validator is embedded as its
internal error list, and `joinIfAny` models the join-and-append step.
Inside `validate_dimensions`/`validate_pricing` the whole body sits in a
`try` whose `except (TypeError, ValueError)` appends one data-type error:
`runSteps` models that control flow, a step raising (`Except.error`) when a
comparison would hit a string operand. -/

def optStr (v : Option String) : String :=
  match v with
  | some s => s
  | none => "None"

/-- `SteelDataValidator.validate_order_id` (internal error list). -/
def validate_order_id (v : Option String) : List String :=
  match v with
  | none => ["Order ID is missing or not a string"]
  | some s =>
      if orderIdMatch s then []
      else ["Invalid Order ID format: " ++ s ++ ". Expected: SO-YYYY-NNNN"]

/-- `SteelDataValidator.validate_batch_id` (internal error list). -/
def validate_batch_id (v : Option String) : List String :=
  match v with
  | none => ["Batch ID is missing or not a string"]
  | some s =>
      if batchIdMatch s then []
      else ["Invalid Batch ID format: " ++ s ++ ". Expected: B-NNNNNN"]

/-- Python string suffix test `grade.endswith('SS')`. -/
def endsWithSS (s : String) : Bool :=
  decide (s.data.reverse.take 2 = ['S', 'S'])

/-- `SteelDataValidator.validate_steel_specifications` (internal error
list).  `if grade and steel_type:` is Python truthiness: both present and
non-empty. -/
def validate_steel_specifications (grade steelType : Option String) :
    List String :=
  let e1 :=
    if isinOpt grade valid_steel_grades then []
    else ["Invalid steel grade: " ++ optStr grade]
  let e2 :=
    if isinOpt steelType valid_steel_types then []
    else ["Invalid steel type: " ++ optStr steelType]
  let e3 :=
    match grade, steelType with
    | some g, some t =>
        if g ≠ "" ∧ t ≠ "" then
          (if endsWithSS g ∧ t ≠ "Stainless Steel" then
            ["Steel grade " ++ g ++ " should be Stainless Steel type, not "
              ++ t]
          else []) ++
          (if (g = "A36" ∨ g = "A572-50" ∨ g = "A992") ∧
              t = "Stainless Steel" then
            ["Carbon steel grade " ++ g ++ " cannot be Stainless Steel type"]
          else [])
        else []
    | _, _ => []
  e1 ++ e2 ++ e3

/-- One step of a `try` body: either more errors, or a raised
`TypeError`/`ValueError`. -/
def runSteps (typeMsg : String) :
    List (Except Unit (List String)) → List String
  | [] => []
  | Except.ok es :: rest => es ++ runSteps typeMsg rest
  | Except.error _ :: _ => [typeMsg]

/-- One dimension column check: `pd.isna(v) or v <= 0` then the range
bounds.  A string operand raises at the first comparison. -/
def dimRangeStep (v : PyVal) (lo hi : ℚ) (posMsg rangeMsg : String) :
    Except Unit (List String) :=
  match v with
  | PyVal.vnone => Except.ok [posMsg]
  | PyVal.vstr _ => Except.error ()
  | PyVal.vnum q =>
      if q ≤ 0 then Except.ok [posMsg]
      else if lo ≤ q ∧ q ≤ hi then Except.ok []
      else Except.ok [rangeMsg]

/-- The weight column check: positivity then the 50,000 kg cap. -/
def weightStep (v : PyVal) : Except Unit (List String) :=
  match v with
  | PyVal.vnone => Except.ok ["Weight must be positive"]
  | PyVal.vstr _ => Except.error ()
  | PyVal.vnum q =>
      if q ≤ 0 then Except.ok ["Weight must be positive"]
      else if 50000 < q then
        Except.ok ["Weight " ++ toString q ++ "kg exceeds maximum (50,000kg)"]
      else Except.ok []

/-- `all(not pd.isna(x) and x > 0 for x in vs)`: short-circuits on the
first missing or non-positive value, raises on a string operand. -/
def crossGuard : List PyVal → Except Unit Bool
  | [] => Except.ok true
  | PyVal.vnone :: _ => Except.ok false
  | PyVal.vstr _ :: _ => Except.error ()
  | PyVal.vnum q :: rest =>
      if 0 < q then crossGuard rest else Except.ok false

/-- Expected weight from dimensions: mm → m conversion and the 7850 kg/m³
steel density. -/
def calcWeight (tq wq lq : ℚ) : ℚ :=
  tq / 1000 * (wq / 1000) * (lq / 1000) * 7850

/-- The 10%-tolerance comparison of declared against recomputed weight. -/
def crossWeightCore (tq wq lq gq : ℚ) : List String :=
  let cw := calcWeight tq wq lq
  if 1 / 10 < |gq - cw| / cw then
    ["Weight " ++ toString gq ++ "kg differs significantly from calculated "
      ++ toString cw ++ "kg"]
  else []

/-- The guarded cross-field weight check of `validate_dimensions`. -/
def crossWeightCheck (t w l g : PyVal) : Except Unit (List String) :=
  match crossGuard [t, w, l, g] with
  | Except.error _ => Except.error ()
  | Except.ok false => Except.ok []
  | Except.ok true => Except.ok (crossWeightCore (pvQ t) (pvQ w) (pvQ l) (pvQ g))

/-- `SteelDataValidator.validate_dimensions` (internal error list). -/
def validate_dimensions (t w l g : PyVal) : List String :=
  runSteps "Invalid dimension data types"
    [ dimRangeStep t (1 / 10) 300 "Thickness must be positive"
        ("Thickness " ++ toString (pvQ t) ++ "mm outside valid range (0.1-300mm)")
    , dimRangeStep w 100 5000 "Width must be positive"
        ("Width " ++ toString (pvQ w) ++ "mm outside valid range (100-5000mm)")
    , dimRangeStep l 6000 25000 "Length must be positive"
        ("Length " ++ toString (pvQ l) ++ "mm outside valid range (6000-25000mm)")
    , weightStep g
    , crossWeightCheck t w l g ]

/-- The unit-price check: positivity then the $10,000/ton cap. -/
def unitPriceStep (v : PyVal) : Except Unit (List String) :=
  match v with
  | PyVal.vnone => Except.ok ["Unit price must be positive"]
  | PyVal.vstr _ => Except.error ()
  | PyVal.vnum q =>
      if q ≤ 0 then Except.ok ["Unit price must be positive"]
      else if 10000 < q then
        Except.ok ["Unit price $" ++ toString q ++
          "/ton exceeds maximum ($10,000/ton)"]
      else Except.ok []

/-- The total-price check: positivity then the $1,000,000 cap. -/
def totalPriceStep (v : PyVal) : Except Unit (List String) :=
  match v with
  | PyVal.vnone => Except.ok ["Total price must be positive"]
  | PyVal.vstr _ => Except.error ()
  | PyVal.vnum q =>
      if q ≤ 0 then Except.ok ["Total price must be positive"]
      else if 1000000 < q then
        Except.ok ["Total price $" ++ toString q ++
          " exceeds maximum ($1,000,000)"]
      else Except.ok []

/-- Expected total from `(weight / 1000) * unit_price` (kg → ton). -/
def calcTotal (uq wq : ℚ) : ℚ := wq / 1000 * uq

/-- The 5%-tolerance comparison of declared against recomputed total. -/
def crossPriceCore (uq tq wq : ℚ) : List String :=
  let ct := calcTotal uq wq
  if 1 / 20 < |tq - ct| / ct then
    ["Total price $" ++ toString tq ++ " differs from calculated $" ++
      toString ct]
  else []

/-- The guarded cross-field pricing check of `validate_pricing`. -/
def crossPriceCheck (u t w : PyVal) : Except Unit (List String) :=
  match crossGuard [u, t, w] with
  | Except.error _ => Except.error ()
  | Except.ok false => Except.ok []
  | Except.ok true => Except.ok (crossPriceCore (pvQ u) (pvQ t) (pvQ w))

/-- `SteelDataValidator.validate_pricing` (internal error list). -/
def validate_pricing (u t w : PyVal) : List String :=
  runSteps "Invalid pricing data types"
    [unitPriceStep u, totalPriceStep t, crossPriceCheck u t w]

/-- `SteelDataValidator.validate_production_info` (internal error list). -/
def validate_production_info (line wh qg status : Option String) :
    List String :=
  (if isinOpt line valid_production_lines then []
   else ["Invalid production line: " ++ optStr line]) ++
  (if isinOpt wh valid_warehouses then []
   else ["Invalid warehouse: " ++ optStr wh]) ++
  (if isinOpt qg valid_quality_grades then []
   else ["Invalid quality grade: " ++ optStr qg]) ++
  (if isinOpt status valid_statuses then []
   else ["Invalid status: " ++ optStr status]) ++
  (if qg = some "Reject" ∧ status ≠ some "Cancelled" ∧
      status ≠ some "Rework Required" then
    ["Rejected quality items must be Cancelled or require Rework"]
   else []) ++
  (if status = some "Shipped" ∧ (qg = some "Reject" ∨ qg = some "Rework")
   then ["Cannot ship rejected or rework items"]
   else [])

/-- `SteelDataValidator.validate_dates` (internal error list).  `now` is
`datetime.now()` in days.  A malformed date raises at parse time, yielding
the single format error; NaT operands make every comparison false, so each
check fires only when both its operands parsed. -/
def validate_dates (now : ℤ) (od pdt dd : DateVal) : List String :=
  if od = DateVal.dbad ∨ pdt = DateVal.dbad ∨ dd = DateVal.dbad then
    ["Invalid date format"]
  else
    (match pdt, od with
     | DateVal.dok p, DateVal.dok o =>
         if p < o then ["Production date cannot be before order date"] else []
     | _, _ => []) ++
    (match dd, pdt with
     | DateVal.dok d, DateVal.dok p =>
         if d < p then ["Delivery date cannot be before production date"]
         else []
     | _, _ => []) ++
    (match pdt, od with
     | DateVal.dok p, DateVal.dok o =>
         if 30 < p - o then ["Production lead time exceeds 30 days"] else []
     | _, _ => []) ++
    (match dd, pdt with
     | DateVal.dok d, DateVal.dok p =>
         if 60 < d - p then ["Delivery lead time exceeds 60 days"] else []
     | _, _ => []) ++
    (match dd with
     | DateVal.dok d =>
         if now + 365 < d then ["Delivery date too far in future (>1 year)"]
         else []
     | _ => [])

/-- `SteelDataValidator.validate_contact_info` (internal error list): the
email is required and pattern-checked; the phone is checked only when
present and non-empty. -/
def validate_contact_info (email phone : Option String) : List String :=
  (match email with
   | none => ["Email address is required"]
   | some s =>
       if s = "" then ["Email address is required"]
       else if emailMatch s then []
       else ["Invalid email format: " ++ s]) ++
  (match phone with
   | none => []
   | some p =>
       if p ≠ "" ∧ ¬phoneMatch p then ["Invalid phone format: " ++ p]
       else [])

/-- `'; '.join(errors)` followed by the append in `validate_single_order`:
a failing sub-validator contributes its joined message as one element. -/
def joinIfAny (es : List String) : List String :=
  match es with
  | [] => []
  | e :: rest => [rest.foldl (fun acc x => acc ++ "; " ++ x) e]

/-- `SteelDataValidator.validate_single_order`: the eight sub-validators in
source order, each contributing at most one joined message. -/
def validate_single_order (now : ℤ) (r : Record) : List String :=
  joinIfAny (validate_order_id r.OrderID) ++
  joinIfAny (validate_batch_id r.BatchID) ++
  joinIfAny (validate_steel_specifications r.SteelGrade r.SteelType) ++
  joinIfAny (validate_dimensions r.Thickness r.Width r.Length r.Weight) ++
  joinIfAny (validate_pricing r.UnitPrice r.TotalPrice r.Weight) ++
  joinIfAny (validate_production_info r.ProductionLine r.Warehouse
    r.QualityGrade r.Status) ++
  joinIfAny (validate_dates now r.OrderDate r.ProductionDate
    r.DeliveryDate) ++
  joinIfAny (validate_contact_info r.ContactEmail r.ContactPhone)

/-! ### Batch validation (`SteelDataValidator.validate_steel_orders`) -/

/-- `self.validation_stats` of the validator instance. -/
structure VStats where
  total_records_validated : ℕ
  valid_records : ℕ
  invalid_records : ℕ
  error_categories : List (String × ℕ)
deriving DecidableEq

/-- The validator instance state: the error-detail list and the stats. -/
structure VState where
  validation_errors : List String
  stats : VStats
deriving DecidableEq

/-- The state set up by `SteelDataValidator.__init__`. -/
def initialVState : VState :=
  { validation_errors := [], stats := ⟨0, 0, 0, []⟩ }

/-- `error.split(':')[0] if ':' in error else 'General'`. -/
def categoryOf (e : String) : String :=
  if e.data.contains ':' then ⟨e.data.takeWhile (fun c => c ≠ ':')⟩
  else "General"

/-- `error_categories[cat] = error_categories.get(cat, 0) + 1` on an
insertion-ordered association list (Python dict semantics). -/
def bumpCat (cats : List (String × ℕ)) (e : String) : List (String × ℕ) :=
  let c := categoryOf e
  let rec go : List (String × ℕ) → List (String × ℕ)
    | [] => [(c, 1)]
    | (k, n) :: rest => if k = c then (k, n + 1) :: rest else (k, n) :: go rest
  go cats

/-- The `for index, order in data.iterrows()` loop: `i` is the row index
used in the `Row-{index}` fallback label. -/
def vsoAux (now : ℤ) : ℕ → VState → List Record → VState × List Record
  | _, st, [] => (st, [])
  | i, st, r :: rest =>
      let errs := validate_single_order now r
      if errs = [] then
        let next := vsoAux now (i + 1)
          { st with stats :=
              { st.stats with valid_records := st.stats.valid_records + 1 } }
          rest
        (next.1, r :: next.2)
      else
        let oid :=
          match r.OrderID with
          | some s => s
          | none => "Row-" ++ toString i
        let st' : VState :=
          { validation_errors := st.validation_errors ++
              errs.map (fun e => "Order " ++ oid ++ ": " ++ e)
            stats :=
              { st.stats with
                invalid_records := st.stats.invalid_records + 1
                error_categories := errs.foldl bumpCat
                  st.stats.error_categories } }
        vsoAux now (i + 1) st' rest

/-- `SteelDataValidator.validate_steel_orders`: reset `validation_errors`,
run the per-record loop (counters accumulate on the incoming state),
overwrite `total_records_validated` with the batch size, return the valid
rows. -/
def validate_steel_orders (now : ℤ) (st : VState) (data : List Record) :
    VState × List Record :=
  let out := vsoAux now 0 { st with validation_errors := [] } data
  ({ out.1 with stats :=
      { out.1.stats with total_records_validated := data.length } },
   out.2)

/-! ### Notification dispatch (`EmailService`)

The transport behaviour is a parameter `tr : ℕ → Option String`: attempt
`k` (1-based) either succeeds (`none`) or raises an exception with message
`some e` — this stands for the simulated `random.random() < 0.02` failure
in `send_single_email`.  The loop is instrumented with the backoff sleeps
performed and the number of transport invocations, so the retry claims can
talk about them; the returned `SendResult` carries exactly the four keys of
the result dict in the source. -/

/-- The result dict built by `EmailService.send_single_email`:
`{'email', 'success', 'error', 'timestamp'}`. -/
structure SendResult where
  email : String
  success : Bool
  error : Option String
  timestamp : ℕ
deriving DecidableEq

/-- The instrumented retry-loop outcome: terminal flags plus the observable
trace (backoff sleeps in seconds, transport invocations). -/
structure SendTrace where
  success : Bool
  error : Option String
  sleeps : List ℕ
  attempts : ℕ
deriving DecidableEq

/-- The `while retry_count < max_retries` loop of `send_single_email`.
`fuel` bounds the remaining iterations (`maxRetries - rc` at entry).  On a
failed attempt `retry_count` is incremented; at the limit the terminal
error is recorded, otherwise the loop sleeps `2 ** retry_count` seconds and
retries. -/
def sendLoop (tr : ℕ → Option String) (maxRetries : ℕ) :
    ℕ → ℕ → SendTrace
  | 0, _ => { success := false, error := none, sleeps := [], attempts := 0 }
  | fuel + 1, rc =>
      match tr (rc + 1) with
      | none => { success := true, error := none, sleeps := [], attempts := 1 }
      | some e =>
          if maxRetries ≤ rc + 1 then
            { success := false
              error := some ("Failed after " ++ toString maxRetries ++
                " attempts: " ++ e)
              sleeps := []
              attempts := 1 }
          else
            let rest := sendLoop tr maxRetries fuel (rc + 1)
            { success := rest.success
              error := rest.error
              sleeps := 2 ^ (rc + 1) :: rest.sleeps
              attempts := rest.attempts + 1 }

/-- The whole retry loop of `send_single_email`: `max_retries = 3`,
starting at `retry_count = 0`. -/
def sendTrace (tr : ℕ → Option String) : SendTrace := sendLoop tr 3 3 0

/-- `EmailService.send_single_email` as observed by the caller: the result
dict (never an exception — every attempt's failure is caught inside the
loop and at worst recorded in `error`). -/
def send_single_email (tr : ℕ → Option String) (toEmail : String)
    (ts : ℕ) : SendResult :=
  let t := sendTrace tr
  { email := toEmail, success := t.success, error := t.error,
    timestamp := ts }

/-- The dispatcher's destination filter in `send_order_confirmations`:
`ContactEmail.notna() & (ContactEmail != '')`. -/
def hasDest (r : Record) : Bool :=
  match r.ContactEmail with
  | some s => decide (s ≠ "")
  | none => false

def emailOf (r : Record) : String :=
  match r.ContactEmail with
  | some s => s
  | none => ""

/-- `format_email_content('order_confirmation', ...)` succeeds unless a
format spec hits a non-numeric cell: `{weight:,.1f}` and
`{total_price:,.2f}` raise on NaN or a string (every other placeholder
str-formats any value). -/
def prepOk (r : Record) : Bool :=
  (match r.Weight with
   | PyVal.vnum _ => true
   | _ => false) &&
  (match r.TotalPrice with
   | PyVal.vnum _ => true
   | _ => false)

/-- The error result appended when email preparation raises (the
`except` branch of the submission loop). -/
def prepFailResult (ts : ℕ) (r : Record) : SendResult :=
  { email := emailOf r, success := false,
    error := some "Email preparation failed: format error",
    timestamp := ts }

/-- `EmailService.send_order_confirmations`, instrumented with the list of
transport invocations `(destination, attempt number)`.  Records failing the
destination filter are dropped before submission; preparation failures are
appended during the submission loop, send results as tasks complete
(completion order is unconstrained in the source; it is modelled as
submission order — the claims checked here are insensitive to that
permutation).  `tr d k` is the transport behaviour for destination `d` on
attempt `k`. -/
def send_order_confirmations (tr : String → ℕ → Option String) (ts : ℕ)
    (orders : List Record) : List SendResult × List (String × ℕ) :=
  let fl := orders.filter hasDest
  let prepFails := (fl.filter (fun r => !prepOk r)).map (prepFailResult ts)
  let sent := (fl.filter prepOk).map
    (fun r => send_single_email (tr (emailOf r)) (emailOf r) ts)
  let calls := (fl.filter prepOk).flatMap
    (fun r => (List.range (sendTrace (tr (emailOf r))).attempts).map
      (fun i => (emailOf r, i + 1)))
  (prepFails ++ sent, calls)

/-! ### Concrete example records -/

/-- A fully valid steel order: passes every rule of
`validate_single_order` (at `now = 0`) and the cleaning `valid_mask`.
Weight 785 kg matches the computed 10mm × 1000mm × 10000mm × 7850 kg/m³
exactly; total price 785 matches 0.785 t × $1000/t exactly. -/
def validRec : Record :=
  { OrderID := some "SO-2023-1001"
    BatchID := some "B-123456"
    CustomerName := some "Jordan Smith"
    SteelGrade := some "A36"
    SteelType := some "Carbon Steel"
    ProductionLine := some "Line-A1"
    Status := some "Pending"
    Warehouse := some "WH-North"
    QualityGrade := some "A"
    Thickness := PyVal.vnum 10
    Width := PyVal.vnum 1000
    Length := PyVal.vnum 10000
    Weight := PyVal.vnum 785
    UnitPrice := PyVal.vnum 1000
    TotalPrice := PyVal.vnum 785
    OrderDate := DateVal.dok 0
    ProductionDate := DateVal.dok 10
    DeliveryDate := DateVal.dok 30
    ContactEmail := some "john@steel.com"
    ContactPhone := some "555-0101" }

/-- `validRec` with a steel grade outside the enumerated set: dropped by
the cleaning `valid_mask`, and invalid under `validate_single_order`. -/
def badGradeRec : Record := { validRec with SteelGrade := some "ZZZ" }

/-- A record with every cell missing: invalid under every required-field
rule (and with the cross-field checks skipped). -/
def emptyRec : Record := {}

/-- `validRec` with an empty destination address. -/
def noDestRec : Record := { validRec with ContactEmail := some "" }

/-- A transport that always succeeds. -/
def trAlwaysOk : ℕ → Option String := fun _ => none

/-- A transport that always fails with the same error. -/
def trAlwaysBoom : ℕ → Option String := fun _ => some "boom"

/-- A transport that fails on attempts 1 and 2 and succeeds from 3 on. -/
def trFailTwice : ℕ → Option String :=
  fun k => if k ≤ 2 then some "boom" else none

/-- A cell holding a string (the operand kind that makes a numeric
comparison raise `TypeError`). -/
def isStrVal (v : PyVal) : Bool :=
  match v with
  | PyVal.vstr _ => true
  | _ => false

/-- The `error_categories` bumps a batch applies on top of an incoming
category table: for each invalid record, one `bumpCat` per error, in loop
order — exactly the category-update block of `validate_steel_orders`. -/
def catFold (now : ℤ) (cats : List (String × ℕ)) :
    List Record → List (String × ℕ)
  | [] => cats
  | r :: rest =>
      let errs := validate_single_order now r
      if errs = [] then catFold now cats rest
      else catFold now (errs.foldl bumpCat cats) rest

/-! ## Helper lemmas -/

theorem crossGuard_all_pos (a b c d : ℚ) (ha : 0 < a) (hb : 0 < b)
    (hc : 0 < c) (hd : 0 < d) :
    crossGuard [PyVal.vnum a, PyVal.vnum b, PyVal.vnum c, PyVal.vnum d] =
      Except.ok true := by
  simp [crossGuard, ha, hb, hc, hd]

theorem crossGuard_skip (vs : List PyVal)
    (hstr : ∀ v ∈ vs, isStrVal v = false)
    (hmiss : ∃ v ∈ vs, v = PyVal.vnone ∨ ∃ q, v = PyVal.vnum q ∧ q ≤ 0) :
    crossGuard vs = Except.ok false := by
  induction vs with
  | nil => rcases hmiss with ⟨v, hv, _⟩; cases hv
  | cons head tail ih =>
      cases head with
      | vnone => simp [crossGuard]
      | vstr s => simpa [isStrVal] using hstr (PyVal.vstr s) (by simp)
      | vnum q =>
          rcases le_or_lt q 0 with hq | hq
          · simp [crossGuard, not_lt.mpr hq]
          · rw [crossGuard, if_pos hq]
            apply ih
            · intro v hv; exact hstr v (by simp [hv])
            · rcases hmiss with ⟨v, hv, hcase⟩
              rcases List.mem_cons.mp hv with rfl | hvtail
              · rcases hcase with h | ⟨q', hq', hle⟩
                · cases h
                · rw [PyVal.vnum.injEq] at hq'
                  exact absurd (hq' ▸ hle) (not_le.mpr hq)
              · exact ⟨v, hvtail, hcase⟩

theorem sendTrace_ok1 (tr : ℕ → Option String) (h1 : tr 1 = none) :
    sendTrace tr =
      { success := true, error := none, sleeps := [], attempts := 1 } := by
  simp [sendTrace, sendLoop, h1]

theorem sendTrace_ok2 (tr : ℕ → Option String) (e1 : String)
    (h1 : tr 1 = some e1) (h2 : tr 2 = none) :
    sendTrace tr =
      { success := true, error := none, sleeps := [2], attempts := 2 } := by
  simp [sendTrace, sendLoop, h1, h2]

theorem sendTrace_ok3 (tr : ℕ → Option String) (e1 e2 : String)
    (h1 : tr 1 = some e1) (h2 : tr 2 = some e2) (h3 : tr 3 = none) :
    sendTrace tr =
      { success := true, error := none, sleeps := [2, 4], attempts := 3 } := by
  simp [sendTrace, sendLoop, h1, h2, h3]

theorem sendTrace_fail3 (tr : ℕ → Option String) (e1 e2 e3 : String)
    (h1 : tr 1 = some e1) (h2 : tr 2 = some e2) (h3 : tr 3 = some e3) :
    sendTrace tr =
      { success := false, error := some ("Failed after 3 attempts: " ++ e3),
        sleeps := [2, 4], attempts := 3 } := by
  simp [sendTrace, sendLoop, h1, h2, h3]
  rfl

theorem sendTrace_terminal (tr : ℕ → Option String) :
    ((sendTrace tr).success = true ∧ (sendTrace tr).error = none) ∨
    ((sendTrace tr).success = false ∧ (sendTrace tr).error ≠ none) := by
  rcases h1 : tr 1 with _ | e1
  · rw [sendTrace_ok1 tr h1]; simp
  · rcases h2 : tr 2 with _ | e2
    · rw [sendTrace_ok2 tr e1 h1 h2]; simp
    · rcases h3 : tr 3 with _ | e3
      · rw [sendTrace_ok3 tr e1 e2 h1 h2 h3]; simp
      · rw [sendTrace_fail3 tr e1 e2 e3 h1 h2 h3]; simp

/-! ## C7 -/

/-- C7: the cross-field weight-tolerance check of `validate_dimensions` is
evaluated only when thickness, width, length and weight are all present and
strictly positive; if any of them is missing or non-positive the check is
skipped (it yields no error and does not raise); when evaluated, the
recomputed weight — mm converted to m, density 7850 kg/m³ — is strictly
positive (so the division has no zero divisor) and a violation is flagged
exactly when the relative deviation of the declared weight exceeds 10%. -/
theorem C7_weight_tolerance :
    (∀ t w l g : PyVal,
        (∀ v ∈ [t, w, l, g], isStrVal v = false) →
        (∃ v ∈ [t, w, l, g],
          v = PyVal.vnone ∨ ∃ q, v = PyVal.vnum q ∧ q ≤ 0) →
        crossWeightCheck t w l g = Except.ok []) ∧
    (∀ tq wq lq gq : ℚ, 0 < tq → 0 < wq → 0 < lq → 0 < gq →
        0 < calcWeight tq wq lq ∧
        crossWeightCheck (PyVal.vnum tq) (PyVal.vnum wq) (PyVal.vnum lq)
            (PyVal.vnum gq) =
          Except.ok (crossWeightCore tq wq lq gq) ∧
        (crossWeightCore tq wq lq gq ≠ [] ↔
          1 / 10 < |gq - calcWeight tq wq lq| / calcWeight tq wq lq)) := by
  constructor
  · intro t w l g hstr hmiss
    rw [crossWeightCheck, crossGuard_skip [t, w, l, g] hstr hmiss]
  · intro tq wq lq gq ht hw hl hg
    refine ⟨by unfold calcWeight; positivity, ?_, ?_⟩
    · rw [crossWeightCheck, crossGuard_all_pos tq wq lq gq ht hw hl hg]
      rfl
    · rw [crossWeightCore]
      split_ifs with hcond <;> simpa using hcond

/-- Witness for C7: at thickness 10, width 1000, length 10000 the check is
skipped when the weight is missing, and with weight 785 it evaluates with a
positive divisor and no violation (exact match). -/
theorem C7_witness :
    crossWeightCheck (PyVal.vnum 10) (PyVal.vnum 1000) (PyVal.vnum 10000)
        PyVal.vnone = Except.ok [] ∧
    (0 < calcWeight 10 1000 10000 ∧
      crossWeightCheck (PyVal.vnum 10) (PyVal.vnum 1000) (PyVal.vnum 10000)
          (PyVal.vnum 785) = Except.ok (crossWeightCore 10 1000 10000 785) ∧
      (crossWeightCore 10 1000 10000 785 ≠ [] ↔
        1 / 10 < |785 - calcWeight 10 1000 10000| / calcWeight 10 1000 10000)) :=
  ⟨C7_weight_tolerance.1 (PyVal.vnum 10) (PyVal.vnum 1000)
      (PyVal.vnum 10000) PyVal.vnone (by decide)
      ⟨PyVal.vnone, by simp, Or.inl rfl⟩,
   C7_weight_tolerance.2 10 1000 10000 785 (by norm_num) (by norm_num)
      (by norm_num) (by norm_num)⟩

/-! ## C8 -/

/-- C8: for positive unit price (within the $10,000/ton cap), positive
weight and a declared total within the $1,000,000 cap, `validate_pricing`
compares the declared total against `(weight / 1000) * unit_price` with a
5% tolerance: a declared total deviating by exactly 6% produces exactly the
one cross-field violation (the unit-price and total-price checks pass), and
a declared total deviating by exactly 4% produces no violation at all. -/
theorem C8_pricing_tolerance (u w : ℚ) (hu : 0 < u) (hcap : u ≤ 10000)
    (hw : 0 < w) (h6cap : calcTotal u w * (106 / 100) ≤ 1000000) :
    validate_pricing (PyVal.vnum u)
        (PyVal.vnum (calcTotal u w * (106 / 100))) (PyVal.vnum w) =
      crossPriceCore u (calcTotal u w * (106 / 100)) w ∧
    (crossPriceCore u (calcTotal u w * (106 / 100)) w).length = 1 ∧
    validate_pricing (PyVal.vnum u)
        (PyVal.vnum (calcTotal u w * (104 / 100))) (PyVal.vnum w) = [] := by
  have hc : 0 < calcTotal u w := by unfold calcTotal; positivity
  have hcne : calcTotal u w ≠ 0 := ne_of_gt hc
  have h6pos : 0 < calcTotal u w * (106 / 100) := by positivity
  have h4pos : 0 < calcTotal u w * (104 / 100) := by positivity
  have h4cap : calcTotal u w * (104 / 100) ≤ 1000000 :=
    le_trans (by nlinarith) h6cap
  have hdev6 : |calcTotal u w * (106 / 100) - calcTotal u w| /
      calcTotal u w = 6 / 100 := by
    rw [show calcTotal u w * (106 / 100) - calcTotal u w =
          calcTotal u w * (6 / 100) by ring,
        abs_of_nonneg (by positivity), mul_div_cancel_left₀ _ hcne]
  have hdev4 : |calcTotal u w * (104 / 100) - calcTotal u w| /
      calcTotal u w = 4 / 100 := by
    rw [show calcTotal u w * (104 / 100) - calcTotal u w =
          calcTotal u w * (4 / 100) by ring,
        abs_of_nonneg (by positivity), mul_div_cancel_left₀ _ hcne]
  have hunit : unitPriceStep (PyVal.vnum u) = Except.ok [] := by
    rw [unitPriceStep, if_neg (not_le.mpr hu), if_neg (not_lt.mpr hcap)]
  have htot6 : totalPriceStep (PyVal.vnum (calcTotal u w * (106 / 100))) =
      Except.ok [] := by
    rw [totalPriceStep, if_neg (not_le.mpr h6pos), if_neg (not_lt.mpr h6cap)]
  have htot4 : totalPriceStep (PyVal.vnum (calcTotal u w * (104 / 100))) =
      Except.ok [] := by
    rw [totalPriceStep, if_neg (not_le.mpr h4pos), if_neg (not_lt.mpr h4cap)]
  have hcross6 : crossPriceCheck (PyVal.vnum u)
      (PyVal.vnum (calcTotal u w * (106 / 100))) (PyVal.vnum w) =
      Except.ok (crossPriceCore u (calcTotal u w * (106 / 100)) w) := by
    rw [crossPriceCheck]
    simp [crossGuard, hu, h6pos, hw, pvQ]
  have hcross4 : crossPriceCheck (PyVal.vnum u)
      (PyVal.vnum (calcTotal u w * (104 / 100))) (PyVal.vnum w) =
      Except.ok (crossPriceCore u (calcTotal u w * (104 / 100)) w) := by
    rw [crossPriceCheck]
    simp [crossGuard, hu, h4pos, hw, pvQ]
  have hcore6 : (crossPriceCore u (calcTotal u w * (106 / 100)) w).length
      = 1 := by
    rw [crossPriceCore]
    rw [if_pos (by rw [hdev6]; norm_num)]
    rfl
  have hcore4 : crossPriceCore u (calcTotal u w * (104 / 100)) w = [] := by
    rw [crossPriceCore]
    rw [if_neg (by rw [hdev4]; norm_num)]
  refine ⟨?_, hcore6, ?_⟩
  · simp [validate_pricing, runSteps, hunit, htot6, hcross6]
  · simp [validate_pricing, runSteps, hunit, htot4, hcross4, hcore4]

/-- Witness for C8: weight 1000 kg (1 ton) at $100/ton gives a computed
total of $100; a declared total of $106 (6% off) yields exactly the one
cross-field violation, $104 (4% off) yields none. -/
theorem C8_witness :
    validate_pricing (PyVal.vnum 100)
        (PyVal.vnum (calcTotal 100 1000 * (106 / 100))) (PyVal.vnum 1000) =
      crossPriceCore 100 (calcTotal 100 1000 * (106 / 100)) 1000 ∧
    (crossPriceCore 100 (calcTotal 100 1000 * (106 / 100)) 1000).length
      = 1 ∧
    validate_pricing (PyVal.vnum 100)
        (PyVal.vnum (calcTotal 100 1000 * (104 / 100))) (PyVal.vnum 1000) =
      [] :=
  C8_pricing_tolerance 100 1000 (by norm_num) (by norm_num) (by norm_num)
    (by norm_num [calcTotal])

/-! ## C3 -/

/-- C3: for every transport behaviour the retry loop of
`send_single_email` makes at most 3 attempts; each failure before the limit
is followed by an exponential-backoff sleep of `2 ** retry_count` seconds —
the sleeps performed are exactly `2, 4, ...` doubling per attempt, one per
non-final failure; and when all 3 attempts fail the returned result is
terminal Failed (`success = false`) with the last error recorded in its
`error` field.  The failure is returned, not raised: `send_single_email` is
a total function into `SendResult`. -/
theorem C3_retry_policy (tr : ℕ → Option String) :
    (sendTrace tr).attempts ≤ 3 ∧
    (sendTrace tr).sleeps =
      (List.range ((sendTrace tr).attempts - 1)).map (fun i => 2 ^ (i + 1)) ∧
    (∀ e1 e2 e3, tr 1 = some e1 → tr 2 = some e2 → tr 3 = some e3 →
      ∀ d ts, send_single_email tr d ts =
        { email := d, success := false,
          error := some ("Failed after 3 attempts: " ++ e3),
          timestamp := ts }) := by
  refine ⟨?_, ?_, ?_⟩
  · rcases h1 : tr 1 with _ | e1
    · rw [sendTrace_ok1 tr h1]; decide
    · rcases h2 : tr 2 with _ | e2
      · rw [sendTrace_ok2 tr e1 h1 h2]; decide
      · rcases h3 : tr 3 with _ | e3
        · rw [sendTrace_ok3 tr e1 e2 h1 h2 h3]
        · rw [sendTrace_fail3 tr e1 e2 e3 h1 h2 h3]
  · rcases h1 : tr 1 with _ | e1
    · rw [sendTrace_ok1 tr h1]; rfl
    · rcases h2 : tr 2 with _ | e2
      · rw [sendTrace_ok2 tr e1 h1 h2]; rfl
      · rcases h3 : tr 3 with _ | e3
        · rw [sendTrace_ok3 tr e1 e2 h1 h2 h3]; rfl
        · rw [sendTrace_fail3 tr e1 e2 e3 h1 h2 h3]; rfl
  · intro e1 e2 e3 h1 h2 h3 d ts
    rw [send_single_email, sendTrace_fail3 tr e1 e2 e3 h1 h2 h3]

/-- Witness for C3: a transport failing on every attempt yields the
terminal Failed result carrying the last error. -/
theorem C3_witness :
    send_single_email trAlwaysBoom "ops@steel.com" 5 =
      { email := "ops@steel.com", success := false,
        error := some ("Failed after 3 attempts: " ++ "boom"),
        timestamp := 5 } :=
  (C3_retry_policy trAlwaysBoom).2.2 "boom" "boom" "boom" rfl rfl rfl
    "ops@steel.com" 5

/-! ## C4 -/

/-- C4 as stated is false: the result dict of `send_single_email` carries
only `email`, `success`, `error` and `timestamp` — no attempt count.  A
transport failing on attempts 1 and 2 and succeeding on attempt 3 makes 3
transport invocations, an always-succeeding one makes 1, yet the two
produced results are identical, so the result cannot record a total
attempt count of 3. -/
theorem C4_counterexample :
    (sendTrace trFailTwice).attempts = 3 ∧
    (sendTrace trAlwaysOk).attempts = 1 ∧
    send_single_email trFailTwice "john@steel.com" 7 =
      send_single_email trAlwaysOk "john@steel.com" 7 := by
  decide

/-- C4 amended: when the transport fails on attempts 1 and 2 and succeeds
on attempt 3, the produced result is terminal Sent (`success = true`, no
error) and the loop made exactly 3 transport invocations; the attempt count
is observable only in the loop trace, not in the result structure. -/
theorem C4_sent_after_two_failures (tr : ℕ → Option String)
    (e1 e2 : String) (h1 : tr 1 = some e1) (h2 : tr 2 = some e2)
    (h3 : tr 3 = none) (d : String) (ts : ℕ) :
    send_single_email tr d ts =
      { email := d, success := true, error := none, timestamp := ts } ∧
    (sendTrace tr).attempts = 3 := by
  rw [send_single_email, sendTrace_ok3 tr e1 e2 h1 h2 h3]
  exact ⟨rfl, rfl⟩

/-- Witness for C4: the fail-twice-then-succeed transport at a concrete
destination. -/
theorem C4_witness :
    send_single_email trFailTwice "john@steel.com" 7 =
      { email := "john@steel.com", success := true, error := none,
        timestamp := 7 } ∧
    (sendTrace trFailTwice).attempts = 3 :=
  C4_sent_after_two_failures trFailTwice "boom" "boom" rfl rfl rfl
    "john@steel.com" 7

/-! ## C2 -/

theorem hasDest_contactEmail (r : Record) (h : hasDest r = true) :
    r.ContactEmail = some (emailOf r) ∧ emailOf r ≠ "" := by
  rcases he : r.ContactEmail with _ | s
  · rw [hasDest, he] at h; cases h
  · rw [hasDest, he] at h
    exact ⟨by rw [emailOf, he], by rw [emailOf, he]; exact of_decide_eq_true h⟩

/-- C2 as stated is false: a valid record whose destination is empty is
filtered out of `send_order_confirmations` before submission and yields no
result at all — there is no Skipped result, so `|results|` is the count of
records with a destination, not that count plus the skipped ones. -/
theorem C2_counterexample :
    (send_order_confirmations (fun _ _ => none) 0 [noDestRec]).1.length ≠
      ([noDestRec].filter hasDest).length +
        ([noDestRec].filter (fun r => !hasDest r)).length := by
  decide

/-- C2 amended: for every transport behaviour and valid-record set, the
number of results equals the number of records with a non-empty
destination (records without a destination yield no result); every
transport invocation is for the destination of some record that passed the
filter — in particular the transport is never invoked for a record with an
empty or missing destination; and every result is terminal Sent
(`success` with no error) or Failed (`success = false` with an error
recorded). -/
theorem C2_dispatch_totality (tr : String → ℕ → Option String) (ts : ℕ)
    (orders : List Record) :
    (send_order_confirmations tr ts orders).1.length =
      (orders.filter hasDest).length ∧
    (∀ c ∈ (send_order_confirmations tr ts orders).2,
      ∃ r ∈ orders, hasDest r = true ∧ r.ContactEmail = some c.1) ∧
    (∀ res ∈ (send_order_confirmations tr ts orders).1,
      (res.success = true ∧ res.error = none) ∨
      (res.success = false ∧ res.error ≠ none)) := by
  refine ⟨?_, ?_, ?_⟩
  · rw [send_order_confirmations]
    simp only [List.length_append, List.length_map]
    rw [Nat.add_comm]
    exact ((orders.filter hasDest).length_eq_length_filter_add prepOk).symm
  · intro c hc
    rw [send_order_confirmations] at hc
    simp only [List.mem_flatMap, List.mem_map, List.mem_range] at hc
    obtain ⟨r, hr, i, _, hci⟩ := hc
    have hr' := List.mem_filter.mp (List.mem_filter.mp hr).1
    refine ⟨r, hr'.1, hr'.2, ?_⟩
    rw [← hci]
    exact (hasDest_contactEmail r hr'.2).1
  · intro res hres
    rw [send_order_confirmations] at hres
    rcases List.mem_append.mp hres with hfail | hsent
    · obtain ⟨r, _, hr⟩ := List.mem_map.mp hfail
      right
      rw [← hr, prepFailResult]
      exact ⟨rfl, by simp⟩
    · obtain ⟨r, _, hr⟩ := List.mem_map.mp hsent
      rw [← hr, send_single_email]
      exact sendTrace_terminal (tr (emailOf r))

/-- Witness for C2: a single valid record with an always-succeeding
transport — one result, and it is terminal Sent. -/
theorem C2_witness :
    (send_order_confirmations (fun _ _ => none) 0 [validRec]).1.length =
      ([validRec].filter hasDest).length ∧
    (((⟨"john@steel.com", true, none, 0⟩ : SendResult).success = true ∧
        (⟨"john@steel.com", true, none, 0⟩ : SendResult).error = none) ∨
      ((⟨"john@steel.com", true, none, 0⟩ : SendResult).success = false ∧
        (⟨"john@steel.com", true, none, 0⟩ : SendResult).error ≠ none)) :=
  ⟨(C2_dispatch_totality (fun _ _ => none) 0 [validRec]).1,
   (C2_dispatch_totality (fun _ _ => none) 0 [validRec]).2.2
     ⟨"john@steel.com", true, none, 0⟩ (by decide)⟩

/-! ## Lemmas on the batch-validation loop -/

theorem vsoAux_valid_eq (now : ℤ) (data : List Record) :
    ∀ i st, (vsoAux now i st data).2 =
      data.filter (fun r => decide (validate_single_order now r = [])) := by
  induction data with
  | nil => intro i st; rfl
  | cons r rest ih =>
      intro i st
      by_cases h : validate_single_order now r = []
      · simp [vsoAux, h, List.filter_cons, ih]
      · simp [vsoAux, h, List.filter_cons, ih]

theorem vsoAux_valid_count (now : ℤ) (data : List Record) :
    ∀ i st, (vsoAux now i st data).1.stats.valid_records =
      st.stats.valid_records + (vsoAux now i st data).2.length := by
  induction data with
  | nil => intro i st; simp [vsoAux]
  | cons r rest ih =>
      intro i st
      by_cases h : validate_single_order now r = []
      · simp only [vsoAux, h, if_pos]
        rw [ih]
        simp only [List.length_cons]
        omega
      · simp only [vsoAux, h, if_neg, not_false_iff]
        rw [ih]

theorem vsoAux_invalid_count (now : ℤ) (data : List Record) :
    ∀ i st, (vsoAux now i st data).1.stats.invalid_records =
      st.stats.invalid_records +
        (data.length - (vsoAux now i st data).2.length) := by
  induction data with
  | nil => intro i st; simp [vsoAux]
  | cons r rest ih =>
      intro i st
      have hfl := List.length_filter_le
        (fun r => decide (validate_single_order now r = [])) rest
      by_cases h : validate_single_order now r = []
      · simp only [vsoAux, h, if_pos]
        rw [ih, vsoAux_valid_eq now rest]
        simp only [List.length_cons]
        omega
      · simp only [vsoAux, h, if_neg, not_false_iff]
        rw [ih, vsoAux_valid_eq now rest]
        simp only [List.length_cons]
        omega

theorem vsoAux_categories (now : ℤ) (data : List Record) :
    ∀ i st, (vsoAux now i st data).1.stats.error_categories =
      catFold now st.stats.error_categories data := by
  induction data with
  | nil => intro i st; rfl
  | cons r rest ih =>
      intro i st
      by_cases h : validate_single_order now r = []
      · simp only [vsoAux, catFold, h, if_pos]
        exact ih (i + 1) _
      · simp only [vsoAux, catFold, h, if_neg, not_false_iff]
        exact ih (i + 1) _

theorem vsoAux_errors_congr (now : ℤ) (data : List Record) :
    ∀ i st1 st2, st1.validation_errors = st2.validation_errors →
      (vsoAux now i st1 data).1.validation_errors =
        (vsoAux now i st2 data).1.validation_errors := by
  induction data with
  | nil => intro i st1 st2 h; exact h
  | cons r rest ih =>
      intro i st1 st2 h
      by_cases hr : validate_single_order now r = []
      · simp only [vsoAux, hr, if_pos]
        exact ih (i + 1) _ _ h
      · simp only [vsoAux, hr, if_neg, not_false_iff]
        exact ih (i + 1) _ _ (by simp [h])

theorem validate_orders_valid_eq (now : ℤ) (st : VState)
    (data : List Record) :
    (validate_steel_orders now st data).2 =
      data.filter (fun r => decide (validate_single_order now r = [])) :=
  vsoAux_valid_eq now data 0 _

theorem validate_orders_valid_count (now : ℤ) (st : VState)
    (data : List Record) :
    (validate_steel_orders now st data).1.stats.valid_records =
      st.stats.valid_records + (validate_steel_orders now st data).2.length := by
  have h := vsoAux_valid_count now data 0 { st with validation_errors := [] }
  simpa [validate_steel_orders] using h

theorem validate_orders_invalid_count (now : ℤ) (st : VState)
    (data : List Record) :
    (validate_steel_orders now st data).1.stats.invalid_records =
      st.stats.invalid_records +
        (data.length - (validate_steel_orders now st data).2.length) := by
  have h := vsoAux_invalid_count now data 0 { st with validation_errors := [] }
  simpa [validate_steel_orders] using h

theorem validate_orders_categories (now : ℤ) (st : VState)
    (data : List Record) :
    (validate_steel_orders now st data).1.stats.error_categories =
      catFold now st.stats.error_categories data := by
  have h := vsoAux_categories now data 0 { st with validation_errors := [] }
  simpa [validate_steel_orders] using h

/-! ## C6 -/

/-- C6 as stated is false: running the validator twice over the same
single-record batch (one invalid record) reports `invalid_records = 2`
and doubled per-category counts in `error_categories` after the second run
— neither the counters nor the category table are reset at the start of a
run, so the reported counts depend on earlier runs of the same instance. -/
theorem C6_counterexample :
    (validate_steel_orders 0
        (validate_steel_orders 0 initialVState [emptyRec]).1
        [emptyRec]).1.stats.invalid_records ≠
      (validate_steel_orders 0 initialVState
        [emptyRec]).1.stats.invalid_records ∧
    (validate_steel_orders 0
        (validate_steel_orders 0 initialVState [emptyRec]).1
        [emptyRec]).1.stats.error_categories ≠
      (validate_steel_orders 0 initialVState
        [emptyRec]).1.stats.error_categories := by
  constructor <;> decide

/-- C6 amended: only the error-detail list `validation_errors` is reset at
the start of each run (the reported list is independent of the prior
state), and `total_records_validated` is overwritten with the batch size;
the aggregate counters `valid_records` and `invalid_records` accumulate on
top of whatever the instance already held, and `error_categories` likewise
applies the batch's per-category bumps (`catFold`) on top of the
instance's existing category table rather than starting from empty. -/
theorem C6_state_semantics (now : ℤ) (st : VState) (data : List Record) :
    (validate_steel_orders now st data).1.validation_errors =
      (validate_steel_orders now initialVState data).1.validation_errors ∧
    (validate_steel_orders now st data).1.stats.valid_records =
      st.stats.valid_records + (validate_steel_orders now st data).2.length ∧
    (validate_steel_orders now st data).1.stats.invalid_records =
      st.stats.invalid_records +
        (data.length - (validate_steel_orders now st data).2.length) ∧
    (validate_steel_orders now st data).1.stats.error_categories =
      catFold now st.stats.error_categories data ∧
    (validate_steel_orders now st data).1.stats.total_records_validated =
      data.length := by
  refine ⟨?_, ?_, ?_, ?_, rfl⟩
  · exact vsoAux_errors_congr now data 0 _ _ rfl
  · exact validate_orders_valid_count now st data
  · exact validate_orders_invalid_count now st data
  · exact validate_orders_categories now st data

/-! ## C1 -/

theorem dedupAux_length (data : List Record) :
    ∀ seen, (dedupAux seen data).1.length + (dedupAux seen data).2.length =
      data.length := by
  induction data with
  | nil => intro seen; rfl
  | cons r rest ih =>
      intro seen
      by_cases h : r.OrderID ∈ seen
      · simp only [dedupAux, h, if_pos]
        have := ih seen
        simp only [List.length_cons]
        omega
      · simp only [dedupAux, h, if_neg, not_false_iff]
        have := ih (r.OrderID :: seen)
        simp only [List.length_cons]
        omega

theorem dedupSplit_length (data : List Record) :
    (dedupSplit data).1.length + (dedupSplit data).2.length = data.length :=
  dedupAux_length data []

theorem clean_cleaned_length (ts : ℕ) (raw : List Record) :
    (clean_data_optimized ts raw).cleaned.length =
      (((dedupSplit raw).1.map coerceRecord).filter validMask).length := by
  simp [clean_data_optimized]

theorem clean_invalid_count_eq (ts : ℕ) (raw : List Record) :
    (clean_data_optimized ts raw).invalid_count =
      (dedupSplit raw).1.length -
        (clean_data_optimized ts raw).cleaned.length := by
  rw [clean_cleaned_length]
  show ((dedupSplit raw).1.map coerceRecord).length - _ = _
  rw [List.length_map]

theorem clean_cleaned_le_kept (ts : ℕ) (raw : List Record) :
    (clean_data_optimized ts raw).cleaned.length ≤
      (dedupSplit raw).1.length := by
  rw [clean_cleaned_length]
  calc (((dedupSplit raw).1.map coerceRecord).filter validMask).length
      ≤ ((dedupSplit raw).1.map coerceRecord).length :=
        List.length_filter_le _ _
    _ = (dedupSplit raw).1.length := List.length_map _ _

/-- C1 as stated is false: a record whose steel grade is outside the
enumerated set is dropped by the cleaning `valid_mask` — it is not dropped
by deduplication, never reaches the validator, and so appears in none of
the three claimed buckets (valid, invalid-with-violations,
deduplication-dropped), even though the input held one record. -/
theorem C1_counterexample :
    (clean_data_optimized 0 [badGradeRec]).cleaned = [] ∧
    (dedupSplit [badGradeRec]).2 = [] ∧
    (validate_steel_orders 0 initialVState
      (clean_data_optimized 0 [badGradeRec]).cleaned).2 = [] ∧
    (validate_steel_orders 0 initialVState
      (clean_data_optimized 0 [badGradeRec]).cleaned).1.validation_errors
      = [] ∧
    ([badGradeRec] : List Record).length = 1 := by
  decide

/-- C1 amended: the pipeline partitions the raw input into four buckets,
not three — records dropped by deduplication, records dropped by the
cleaning specification filter (`invalid_count`, counted but retained
nowhere with violations), the validator's valid set, and the validator's
invalid set.  Every cleaned record lands in exactly one side of the
validator partition (the valid rows are precisely those with no
violations), and the four bucket sizes sum to the raw input size. -/
theorem C1_partition (ts : ℕ) (now : ℤ) (st : VState) (raw : List Record) :
    (validate_steel_orders now st
        (clean_data_optimized ts raw).cleaned).2 =
      (clean_data_optimized ts raw).cleaned.filter
        (fun r => decide (validate_single_order now r = [])) ∧
    (clean_data_optimized ts raw).duplicates_removed =
      (dedupSplit raw).2.length ∧
    raw.length = (clean_data_optimized ts raw).duplicates_removed +
      (clean_data_optimized ts raw).invalid_count +
      (validate_steel_orders now st
        (clean_data_optimized ts raw).cleaned).2.length +
      ((validate_steel_orders now st
          (clean_data_optimized ts raw).cleaned).1.stats.invalid_records -
        st.stats.invalid_records) := by
  have hded := dedupSplit_length raw
  have hvalid := validate_orders_valid_eq now st
    (clean_data_optimized ts raw).cleaned
  refine ⟨hvalid, ?_, ?_⟩
  · have hdup : (clean_data_optimized ts raw).duplicates_removed =
        raw.length - (dedupSplit raw).1.length := rfl
    omega
  · have hdup : (clean_data_optimized ts raw).duplicates_removed =
        raw.length - (dedupSplit raw).1.length := rfl
    have hic := clean_invalid_count_eq ts raw
    have hsurv := clean_cleaned_le_kept ts raw
    have hinv' := validate_orders_invalid_count now st
      (clean_data_optimized ts raw).cleaned
    have hvl : (validate_steel_orders now st
        (clean_data_optimized ts raw).cleaned).2.length ≤
        ((clean_data_optimized ts raw).cleaned).length := by
      rw [hvalid]
      exact List.length_filter_le _ _
    omega

/-! ## C9 -/

theorem dedupAux_kept_sublist (data : List Record) :
    ∀ seen, List.Sublist (dedupAux seen data).1 data := by
  induction data with
  | nil => intro seen; exact List.Sublist.refl []
  | cons r rest ih =>
      intro seen
      by_cases h : r.OrderID ∈ seen
      · simp only [dedupAux, h, if_pos]
        exact List.Sublist.cons r (ih seen)
      · simp only [dedupAux, h, if_neg, not_false_iff]
        exact List.Sublist.cons₂ r (ih (r.OrderID :: seen))

theorem dedupAux_filter_key (data : List Record) (k : Option String) :
    ∀ seen, (dedupAux seen data).1.filter (fun r => decide (r.OrderID = k)) =
      if k ∈ seen then []
      else (data.filter (fun r => decide (r.OrderID = k))).take 1 := by
  induction data with
  | nil =>
      intro seen
      by_cases h : k ∈ seen <;> simp [dedupAux, h]
  | cons r rest ih =>
      intro seen
      by_cases hm : r.OrderID ∈ seen
      · simp only [dedupAux, hm, if_pos]
        rw [ih seen]
        by_cases hrk : r.OrderID = k
        · rw [if_pos (hrk ▸ hm), if_pos (hrk ▸ hm)]
        · rw [List.filter_cons_of_neg (by simpa using hrk)]
      · simp only [dedupAux, hm, if_neg, not_false_iff]
        by_cases hrk : r.OrderID = k
        · rw [List.filter_cons_of_pos (by simpa using hrk),
            List.filter_cons_of_pos (by simpa using hrk)]
          rw [ih (r.OrderID :: seen)]
          rw [if_pos (by simp [hrk]), if_neg (hrk ▸ hm)]
          rfl
        · rw [List.filter_cons_of_neg (by simpa using hrk),
            List.filter_cons_of_neg (by simpa using hrk)]
          rw [ih (r.OrderID :: seen)]
          have : (k ∈ r.OrderID :: seen) ↔ k ∈ seen := by
            simp [List.mem_cons]
            intro hk
            exact absurd hk.symm hrk
          by_cases hks : k ∈ seen
          · rw [if_pos (this.mpr hks), if_pos hks]
          · rw [if_neg (fun hc => hks (this.mp hc)), if_neg hks]

/-- C9: cleaning deduplicates by the OrderID business key — the kept rows
form a sublist of the input (input order preserved); for every key the kept
rows with that key are exactly the first input occurrence of that key; the
processor's `duplicates_removed` count is exactly the number of dropped
rows; and for two records sharing a business key (the first passing the
specification mask) the cleaned count is the input count minus one. -/
theorem C9_deduplication :
    (∀ data : List Record,
      List.Sublist (dedupSplit data).1 data ∧
      (∀ ts, (clean_data_optimized ts data).duplicates_removed =
        (dedupSplit data).2.length) ∧
      (∀ k : Option String,
        (dedupSplit data).1.filter (fun r => decide (r.OrderID = k)) =
          (data.filter (fun r => decide (r.OrderID = k))).take 1)) ∧
    (∀ (ts : ℕ) (r1 r2 : Record), r1.OrderID = r2.OrderID →
      validMask (coerceRecord r1) = true →
      (clean_data_optimized ts [r1, r2]).cleaned.length = 2 - 1) := by
  constructor
  · intro data
    refine ⟨dedupAux_kept_sublist data [], ?_, ?_⟩
    · intro ts
      have hded := dedupSplit_length data
      have hdup : (clean_data_optimized ts data).duplicates_removed =
          data.length - (dedupSplit data).1.length := rfl
      omega
    · intro k
      have h := dedupAux_filter_key data k []
      simpa [dedupSplit] using h
  · intro ts r1 r2 hkey hmask
    have hk2 : r2.OrderID = r1.OrderID := hkey.symm
    rw [clean_cleaned_length]
    simp [dedupSplit, dedupAux, hk2, List.filter_cons, hmask]

/-- Witness for C9: two copies of the fully valid record share a business
key; cleaning keeps one row. -/
theorem C9_witness :
    (clean_data_optimized 0 [validRec, validRec]).cleaned.length = 2 - 1 :=
  C9_deduplication.2 0 validRec validRec rfl (by decide)

/-! ## C10 -/

theorem joinIfAny_eq_nil (es : List String) :
    joinIfAny es = [] ↔ es = [] := by
  cases es <;> simp [joinIfAny]

theorem validRec_dims :
    validate_dimensions (PyVal.vnum 10) (PyVal.vnum 1000) (PyVal.vnum 10000)
      (PyVal.vnum 785) = [] := by
  norm_num [validate_dimensions, dimRangeStep, weightStep, crossWeightCheck,
    crossGuard, crossWeightCore, calcWeight, runSteps, pvQ]

theorem validRec_pricing :
    validate_pricing (PyVal.vnum 1000) (PyVal.vnum 785) (PyVal.vnum 785)
      = [] := by
  norm_num [validate_pricing, unitPriceStep, totalPriceStep, crossPriceCheck,
    crossGuard, crossPriceCore, calcTotal, runSteps, pvQ]

theorem validRec_valid : validate_single_order 0 validRec = [] := by
  rw [validate_single_order]
  rw [show validate_order_id validRec.OrderID = [] by decide]
  rw [show validate_batch_id validRec.BatchID = [] by decide]
  rw [show validate_steel_specifications validRec.SteelGrade
    validRec.SteelType = [] by decide]
  rw [show validate_dimensions validRec.Thickness validRec.Width
    validRec.Length validRec.Weight = [] from validRec_dims]
  rw [show validate_pricing validRec.UnitPrice validRec.TotalPrice
    validRec.Weight = [] from validRec_pricing]
  rw [show validate_production_info validRec.ProductionLine
    validRec.Warehouse validRec.QualityGrade validRec.Status = [] by decide]
  rw [show validate_dates 0 validRec.OrderDate validRec.ProductionDate
    validRec.DeliveryDate = [] by decide]
  rw [show validate_contact_info validRec.ContactEmail
    validRec.ContactPhone = [] by decide]
  rfl

theorem valid_implies_contact (now : ℤ) (r : Record)
    (h : validate_single_order now r = []) :
    validate_contact_info r.ContactEmail r.ContactPhone = [] := by
  rw [validate_single_order] at h
  repeat rw [List.append_eq_nil] at h
  exact (joinIfAny_eq_nil _).mp h.2

theorem valid_implies_hasDest (now : ℤ) (r : Record)
    (h : validate_single_order now r = []) :
    hasDest r = true ∧ emailMatch (emailOf r) = true := by
  have hc := valid_implies_contact now r h
  unfold validate_contact_info at hc
  rw [List.append_eq_nil] at hc
  obtain ⟨hce, _⟩ := hc
  rcases he : r.ContactEmail with _ | s
  · rw [he] at hce; simp at hce
  · rw [he] at hce
    by_cases hs : s = ""
    · simp [hs] at hce
    · by_cases hm : emailMatch s
      · constructor
        · rw [hasDest, he]; exact decide_eq_true hs
        · rw [emailOf, he]; exact hm
      · simp [hs, hm] at hce

/-- C10: the contact-info rule always yields a violation when ContactEmail
is missing, empty, or fails the email pattern, and a missing or empty
ContactPhone contributes nothing (the phone check is skipped); hence every
record with no violations has a non-empty pattern-conforming ContactEmail,
and the dispatcher's destination filter removes no record of a validated
batch. -/
theorem C10_contact_gate :
    (∀ e p : Option String,
      ((e = none ∨ e = some "" ∨ ∃ s, e = some s ∧ emailMatch s = false) →
        validate_contact_info e p ≠ []) ∧
      ((p = none ∨ p = some "") →
        validate_contact_info e p = validate_contact_info e none)) ∧
    (∀ (now : ℤ) (r : Record), validate_single_order now r = [] →
      hasDest r = true ∧ emailMatch (emailOf r) = true) ∧
    (∀ (now : ℤ) (st : VState) (data : List Record),
      ((validate_steel_orders now st data).2).filter hasDest =
        (validate_steel_orders now st data).2) := by
  refine ⟨?_, valid_implies_hasDest, ?_⟩
  · intro e p
    constructor
    · rintro (rfl | rfl | ⟨s, rfl, hm⟩)
      · simp [validate_contact_info]
      · simp [validate_contact_info]
      · by_cases hs : s = ""
        · simp [validate_contact_info, hs]
        · simp [validate_contact_info, hs, hm]
    · rintro (rfl | rfl) <;> simp [validate_contact_info]
  · intro now st data
    rw [validate_orders_valid_eq]
    refine List.filter_eq_self.mpr ?_
    intro a ha
    have := (List.mem_filter.mp ha).2
    exact (valid_implies_hasDest now a (of_decide_eq_true this)).1

/-- Witness for C10: the fully valid record passes the destination filter
with a pattern-conforming email. -/
theorem C10_witness :
    hasDest validRec = true ∧ emailMatch (emailOf validRec) = true :=
  C10_contact_gate.2.1 0 validRec validRec_valid

/-! ## C5 -/

theorem coerce_derive_coerce (t : ℕ) (r : Record) :
    coerceRecord (deriveRecord t (coerceRecord r)) =
      deriveRecord t (coerceRecord r) := rfl

theorem mask_derive (t : ℕ) (r : Record) :
    validMask (deriveRecord t r) = validMask r := rfl

theorem derive_derive (t1 t2 : ℕ) (r : Record) :
    deriveRecord t2 (deriveRecord t1 r) =
      { deriveRecord t1 r with ProcessedAt := some t2 } := rfl

theorem cleaned_normal (t : ℕ) (X : List Record) :
    (clean_data_optimized t X).cleaned =
      ((dedupSplit X).1.filter (fun r => validMask (coerceRecord r))).map
        (fun r => deriveRecord t (coerceRecord r)) := by
  show ((((dedupSplit X).1.map coerceRecord).filter validMask).map
    (deriveRecord t)) = _
  rw [List.filter_map, List.map_map]
  rfl

theorem dedupAux_kept_keys (data : List Record) :
    ∀ seen, (((dedupAux seen data).1.map (fun r => r.OrderID)).Nodup ∧
      ∀ k ∈ seen, k ∉ (dedupAux seen data).1.map (fun r => r.OrderID)) := by
  induction data with
  | nil => intro seen; exact ⟨List.nodup_nil, by simp [dedupAux]⟩
  | cons r rest ih =>
      intro seen
      by_cases h : r.OrderID ∈ seen
      · simp only [dedupAux, h, if_pos]
        exact ih seen
      · simp only [dedupAux, h, if_neg, not_false_iff]
        obtain ⟨hn, hs⟩ := ih (r.OrderID :: seen)
        refine ⟨?_, ?_⟩
        · simp only [List.map_cons, List.nodup_cons]
          exact ⟨hs r.OrderID (by simp), hn⟩
        · intro k hk
          simp only [List.map_cons, List.mem_cons, not_or]
          constructor
          · intro hkr
            exact h (hkr ▸ hk)
          · exact hs k (by simp [hk])

theorem dedupAux_noop (data : List Record) :
    ∀ seen, (∀ r ∈ data, r.OrderID ∉ seen) →
      (data.map (fun r => r.OrderID)).Nodup →
      dedupAux seen data = (data, []) := by
  induction data with
  | nil => intro seen _ _; rfl
  | cons r rest ih =>
      intro seen hseen hnodup
      have h : r.OrderID ∉ seen := hseen r (by simp)
      simp only [dedupAux, h, if_neg, not_false_iff]
      have hn : (∀ x ∈ rest, ¬x.OrderID = r.OrderID) ∧
          (rest.map (fun r => r.OrderID)).Nodup := by
        simpa using hnodup
      rw [ih (r.OrderID :: seen) ?_ hn.2]
      intro x hx
      simp only [List.mem_cons, not_or]
      refine ⟨?_, hseen x (by simp [hx])⟩
      intro hxr
      exact hn.1 x hx hxr

/-- C5 as stated is false: re-cleaning a cleaned batch at a later
`datetime.now()` rewrites the `ProcessedAt` column, so the collections
differ — cleaning is not literally idempotent. -/
theorem C5_counterexample :
    (clean_data_optimized 1
        (clean_data_optimized 0 [validRec]).cleaned).cleaned ≠
      (clean_data_optimized 0 [validRec]).cleaned := by
  intro h
  have h2 := congrArg (List.map (fun r => r.ProcessedAt)) h
  have h3 : ((clean_data_optimized 1
      (clean_data_optimized 0 [validRec]).cleaned).cleaned).map
        (fun r => r.ProcessedAt) ≠
      ((clean_data_optimized 0 [validRec]).cleaned).map
        (fun r => r.ProcessedAt) := by decide
  exact h3 h2

/-- C5 amended: cleaning is idempotent up to the `ProcessedAt` timestamp —
re-cleaning a cleaned batch deduplicates nothing, re-coerces nothing,
filters nothing and recomputes the same derived columns, changing only the
`ProcessedAt` stamp to the new run's time; in particular re-cleaning at the
same timestamp returns the cleaned batch unchanged. -/
theorem C5_clean_idempotent_mod_timestamp (t1 t2 : ℕ) (X : List Record) :
    (clean_data_optimized t2 (clean_data_optimized t1 X).cleaned).cleaned =
      (clean_data_optimized t1 X).cleaned.map
        (fun r => { r with ProcessedAt := some t2 }) ∧
    (clean_data_optimized t1 (clean_data_optimized t1 X).cleaned).cleaned =
      (clean_data_optimized t1 X).cleaned := by
  have hmain : ∀ t : ℕ,
      (clean_data_optimized t (clean_data_optimized t1 X).cleaned).cleaned =
        (clean_data_optimized t1 X).cleaned.map
          (fun r => { r with ProcessedAt := some t }) := by
    intro t
    have hY := cleaned_normal t1 X
    have hnodup : (((clean_data_optimized t1 X).cleaned).map
        (fun r => r.OrderID)).Nodup := by
      rw [hY, List.map_map]
      have h2 : List.Sublist
          (((dedupSplit X).1.filter
            (fun r => validMask (coerceRecord r))).map (fun r => r.OrderID))
          ((dedupSplit X).1.map (fun r => r.OrderID)) :=
        List.Sublist.map _ (List.filter_sublist _)
      exact List.Sublist.nodup h2 (dedupAux_kept_keys X []).1
    have hded : dedupSplit ((clean_data_optimized t1 X).cleaned) =
        ((clean_data_optimized t1 X).cleaned, []) :=
      dedupAux_noop _ [] (by simp) hnodup
    calc (clean_data_optimized t (clean_data_optimized t1 X).cleaned).cleaned
        = ((dedupSplit ((clean_data_optimized t1 X).cleaned)).1.filter
            (fun r => validMask (coerceRecord r))).map
            (fun r => deriveRecord t (coerceRecord r)) :=
          cleaned_normal t _
      _ = (((clean_data_optimized t1 X).cleaned).filter
            (fun r => validMask (coerceRecord r))).map
            (fun r => deriveRecord t (coerceRecord r)) := by
          rw [congrArg Prod.fst hded]
      _ = (clean_data_optimized t1 X).cleaned.map
            (fun r => { r with ProcessedAt := some t }) := by
          rw [hY, List.filter_map, List.map_map, List.map_map]
          rw [show (((dedupSplit X).1.filter
                (fun r => validMask (coerceRecord r))).filter
              ((fun r => validMask (coerceRecord r)) ∘
                fun r => deriveRecord t1 (coerceRecord r))) =
              ((dedupSplit X).1.filter
                (fun r => validMask (coerceRecord r))) from
            List.filter_eq_self.mpr
              (fun a ha => (List.mem_filter.mp ha).2)]
          rfl
  refine ⟨hmain t2, ?_⟩
  rw [hmain t1, cleaned_normal t1 X, List.map_map]
  rfl
